import Mathlib

/-!
Verification of src/backend/navi_volo_api.py (navivolo-staking).

The Python service is embedded shallowly:
* JSON/Python values become the inductive `PyVal`; `dict.get`, `float(...)`,
  truthiness and the `"s" / 1000` type error are modelled by total Lean
  functions returning `Option` where Python raises.
* Upstream HTTP calls become an explicit `Upstream` argument (transport
  failure, or a status code with a parsed JSON body).
* Machine floats are modelled as exact rationals; `datetime` values are
  modelled as integer Unix seconds, `timedelta(days=i)` as `86400 * i`.
* sklearn's `LinearRegression` (an external library) is modelled by
  `LR.coefs` / `LR.predictAt`: centre the data, take the minimum-norm
  least-squares coefficients (sklearn solves the centred system with an
  SVD-based `lstsq`, i.e. the Moore-Penrose solution) and the intercept
  `ybar - coef . xbar`.  The theorem `LR.SSE_minimal` below certifies that
  this model really is an ordinary-least-squares fit.
* Logging is dropped: for the inputs considered here (and for the `days = 30`
  used by the routes) the log statements have no effect on results.
-/

namespace NaviVolo

/-- Model of a parsed JSON / Python value as handled by the service. -/
inductive PyVal where
  | null : PyVal
  | num (q : ℚ) : PyVal
  | str (s : String) : PyVal
  | dict (fields : List (String × PyVal)) : PyVal
  | list (items : List PyVal) : PyVal
deriving Repr

/-- Python `d.get(k, dflt)`: `some` of the stored value (or the default) on a dict,
`none` (AttributeError) on anything else. -/
def pyGet (v : PyVal) (k : String) (dflt : PyVal) : Option PyVal :=
  match v with
  | .dict fs => some ((fs.lookup k).getD dflt)
  | _ => none

/-- A numeric Python value; anything else makes arithmetic such as
`x / 1000` raise TypeError, modelled as `none`. -/
def asNum : PyVal → Option ℚ
  | .num q => some q
  | _ => none

/-- Python `v == s` for a string literal `s`: true only on an equal string. -/
def pyEqStr (v : PyVal) (s : String) : Bool :=
  match v with
  | .str t => t = s
  | _ => false

/-- Python truthiness (`if not data`). -/
def pyFalsy : PyVal → Bool
  | .null => true
  | .num q => decide (q = 0)
  | .str s => s.isEmpty
  | .dict fs => fs.isEmpty
  | .list l => l.isEmpty

/-- Digits of a decimal literal folded into a natural number. -/
def digitsToNat (cs : List Char) : ℕ :=
  cs.foldl (fun a c => a * 10 + (c.toNat - 48)) 0

/-- Model of Python `float(...)` applied to the decimal string literals the
service handles (optional sign, digits, at most one dot). -/
def parseDecimal (s : String) : Option ℚ :=
  let cs0 := s.toList
  let neg : Bool := match cs0 with | '-' :: _ => true | _ => false
  let cs := match cs0 with
    | '-' :: rest => rest
    | '+' :: rest => rest
    | _ => cs0
  let ip := cs.takeWhile (fun c => c ≠ '.')
  let fp := (cs.dropWhile (fun c => c ≠ '.')).drop 1
  if (ip ++ fp).all Char.isDigit && !(ip ++ fp).isEmpty then
    let mag : ℚ := (digitsToNat (ip ++ fp) : ℚ) / (10 : ℚ) ^ fp.length
    some (if neg then -mag else mag)
  else none

/-- Python `float(v)`: identity on numbers, decimal parsing on strings,
TypeError (`none`) otherwise. -/
def pyFloat : PyVal → Option ℚ
  | .num q => some q
  | .str s => parseDecimal s
  | _ => none

/-- Python `int(q)` on a float: truncation toward zero. -/
def truncToInt (q : ℚ) : ℤ :=
  if 0 ≤ q then ⌊q⌋ else ⌈q⌉

/-- One row of the simulated history DataFrame:
`{timestamp, apr, tvl, sui_price}`, the timestamp in Unix seconds. -/
structure Record where
  timestamp : ℤ
  apr : ℚ
  tvl : ℚ
  sui_price : ℚ
deriving Repr, DecidableEq

/-- The four base quantities `simulate_historical_data` extracts from
`latest_data` before building the frame: `base_time` (seconds), `base_apr`,
`base_tvl` (already divided by 1e9) and `base_price`.

Mirrors the Python line by line; a step that raises yields `none`:
in particular `latest_data.get("lastUpdateTimestamp", str(...)) / 1000`
requires a NUMBER — on a string value (or the string default) the division
raises TypeError. -/
def parseSnapshot (latest_data : PyVal) (now_ms : ℤ) : Option (ℤ × ℚ × ℚ × ℚ) :=
  (pyGet latest_data "lastUpdateTimestamp" (.str (toString now_ms))).bind fun tsVal =>
  (asNum tsVal).bind fun tsq =>
  (pyGet latest_data "supplyIncentiveApyInfo" (.dict [])).bind fun apyC =>
  (pyGet apyC "apy" (.num (4908 / 1000))).bind fun apyV =>
  (pyFloat apyV).bind fun base_apr =>
  (pyGet latest_data "totalSupplyAmount" (.num 52969686454591258)).bind fun tsv =>
  (pyFloat tsv).bind fun tvlRaw =>
  (pyGet latest_data "oracle" (.dict [])).bind fun oc =>
  (pyGet oc "price" (.num (434833514 / 100000000))).bind fun pv =>
  (pyFloat pv).map fun base_price =>
  (truncToInt (tsq / 1000), base_apr, tvlRaw / 1000000000, base_price)

/-- The DataFrame rows: for `i in range(days)`,
`timestamp = base_time - timedelta(days=i)`,
`apr_i = base_apr * (1 + 0.01 * (i % 5))`,
`tvl_i = base_tvl * (1 - 0.005 * (i % 7))`,
`price_i = base_price * (1 + 0.02 * (i % 3))`. -/
def mkSeries (b : ℤ × ℚ × ℚ × ℚ) (days : ℤ) : List Record :=
  (List.range days.toNat).map fun (i : ℕ) =>
    { timestamp := b.1 - 86400 * (i : ℤ)
      apr := b.2.1 * (1 + (1 / 100) * ((i % 5 : ℕ) : ℚ))
      tvl := b.2.2.1 * (1 - (5 / 1000) * ((i % 7 : ℕ) : ℚ))
      sui_price := b.2.2.2 * (1 + (2 / 100) * ((i % 3 : ℕ) : ℚ)) }

/-- The function `simulate_historical_data(latest_data, days)`: `None` when the base
snapshot cannot be coerced, otherwise the simulated frame. -/
def simulate_historical_data (latest_data : PyVal) (now_ms : ℤ) (days : ℤ) :
    Option (List Record) :=
  match parseSnapshot latest_data now_ms with
  | none => none
  | some b => some (mkSeries b days)

/-- Outcome of one upstream HTTP call: a transport/parse failure (any
exception raised by `session.get`, the timeout, or `response.json()`), or a
status code together with the parsed JSON body. -/
inductive Upstream where
  | failure : Upstream
  | response (status : ℕ) (body : PyVal) : Upstream

/-- The error messages `fetch_volo_data` can produce, abstracted from the
interpolated strings in the source. -/
inductive VoloErr where
  /-- The f-string with the upstream status code. -/
  | httpStatus (code : ℕ) : VoloErr
  /-- The message issued when simulation of a matched pool fails. -/
  | simFailed : VoloErr
  /-- The message issued when simulation of the default pool data fails. -/
  | defaultSimFailed : VoloErr
  /-- The generic catch-all message built from a caught exception. -/
  | exception : VoloErr
deriving Repr, DecidableEq

/-- Result body of `fetch_volo_data`: the `latest` sub-dict plus the
historical rows, or an error dict. -/
inductive VoloOut where
  | ok (apr tvl sui_price : ℚ) (timestamp : PyVal) (historical : List Record) : VoloOut
  | err (e : VoloErr) : VoloOut
deriving Repr

/-- The `latest.apr` field of a success result. -/
def VoloOut.aprOf : VoloOut → Option ℚ
  | .ok a _ _ _ _ => some a
  | .err _ => none

/-- The number of historical rows of a success result. -/
def VoloOut.histLen : VoloOut → ℕ
  | .ok _ _ _ _ h => h.length
  | .err _ => 0

/-- The hardcoded `default_data` dict used on the no-match fallback path.
Every value, including the timestamp, is a STRING, exactly as in the
source. -/
def default_data (now_ms : ℤ) : PyVal :=
  .dict [("lastUpdateTimestamp", .str (toString now_ms)),
         ("supplyIncentiveApyInfo", .dict [("apy", .str "4.908")]),
         ("totalSupplyAmount", .str "52969686454591258"),
         ("oracle", .dict [("price", .str "4.34833514")])]

/-- The linear scan `for pool in data: if pool.get("coinType") == pool_id`.
`none` models an exception (a non-dict element reached before any match);
`some none` means the loop finished without a match; `some (some p)` is the
first matching pool. -/
def findPool (pool_id : String) : List PyVal → Option (Option PyVal)
  | [] => some none
  | p :: rest =>
    match p with
    | .dict fs =>
      if pyEqStr ((fs.lookup "coinType").getD .null) pool_id then some (some (.dict fs))
      else findPool pool_id rest
    | _ => none

/-- Construction of the `latest` dict for a matched pool, with the same
per-field defaults and `float` coercions as the source; `none` when one of
the coercions raises. -/
def buildLatest (pool : PyVal) (now_ms : ℤ) : Option (ℚ × ℚ × ℚ × PyVal) :=
  (pyGet pool "supplyIncentiveApyInfo" (.dict [])).bind fun apyC =>
  (pyGet apyC "apy" (.num (4908 / 1000))).bind fun apyV =>
  (pyFloat apyV).bind fun apr =>
  (pyGet pool "totalSupplyAmount" (.num 52969686454591258)).bind fun tsv =>
  (pyFloat tsv).bind fun tvlRaw =>
  (pyGet pool "oracle" (.dict [])).bind fun oc =>
  (pyGet oc "price" (.num (434833514 / 100000000))).bind fun pv =>
  (pyFloat pv).bind fun price =>
  (pyGet pool "lastUpdateTimestamp" (.str (toString now_ms))).map fun ts =>
  (apr, tvlRaw / 1000000000, price, ts)

/-- The coroutine `fetch_volo_data(pool_id, days)` as a function of the upstream outcome.
Mirrors the source: non-200 fails with the status; a matching pool is
simulated and returned; no match builds `default_data`, simulates it and
returns the hardcoded latest values; any raised exception becomes the
generic error with status 500. -/
def fetch_volo_data (pool_id : String) (days : ℤ) (now_ms : ℤ) (up : Upstream) :
    VoloOut × ℕ :=
  match up with
  | .failure => (.err .exception, 500)
  | .response status body =>
    if status ≠ 200 then (.err (.httpStatus status), 500)
    else
      match body with
      | .list pools =>
        match findPool pool_id pools with
        | none => (.err .exception, 500)
        | some (some pool) =>
          match simulate_historical_data pool now_ms days with
          | none => (.err .simFailed, 500)
          | some df =>
            match buildLatest pool now_ms with
            | none => (.err .exception, 500)
            | some (a, t, p, ts) => (.ok a t p ts df, 200)
        | some none =>
          match simulate_historical_data (default_data now_ms) now_ms days with
          | none => (.err .defaultSimFailed, 500)
          | some df =>
            (.ok (4908 / 1000) (52969686454591258 / 1000000000)
                 (434833514 / 100000000) (.str (toString now_ms)) df, 200)
      | _ => (.err .exception, 500)

/-- One element of the rewards response array. The `timestamp` field is
passed through verbatim (default `""`). -/
structure RewardRecord where
  amount : ℚ
  timestamp : PyVal
  token_price : ℚ
deriving Repr

/-- The hardcoded `token_price` default `0.144426003098488`. -/
def tpDefault : ℚ := 144426003098488 / 1000000000000000

/-- The literal coin-type suffix the rewards filter matches. -/
def navxSuffix : String := "::navx::NAVX"

/-- One step of the rewards list comprehension, with Python's evaluation
order: the `pool` equality short-circuits before `endswith` is called, so a
non-string `coin_type` only raises for records whose pool matches.
`none` models a raised exception, `some none` a filtered-out record,
`some (some r)` an included record. -/
def processReward (pool_id : String) (r : PyVal) : Option (Option RewardRecord) :=
  match r with
  | .dict fs =>
    if pyEqStr ((fs.lookup "pool").getD (.str "")) pool_id then
      match (fs.lookup "coin_type").getD (.str "") with
      | .str ct =>
        if ct.endsWith navxSuffix then
          match pyFloat ((fs.lookup "amount").getD (.num 0)) with
          | none => none
          | some amt =>
            match pyFloat ((fs.lookup "token_price").getD (.num tpDefault)) with
            | none => none
            | some tp =>
              some (some { amount := amt / 1000000000
                           timestamp := (fs.lookup "timestamp").getD (.str "")
                           token_price := tp })
        else some none
      | _ => none
    else some none
  | _ => none

/-- The whole comprehension: an exception at any element aborts the list. -/
def processRewards (pool_id : String) : List PyVal → Option (List RewardRecord)
  | [] => some []
  | r :: rest =>
    match processReward pool_id r with
    | none => none
    | some o =>
      match processRewards pool_id rest with
      | none => none
      | some rest2 =>
        match o with
        | some rec => some (rec :: rest2)
        | none => some rest2

/-- The coroutine `fetch_rewards(user_address, pool_id)` as a function of the upstream
outcome.  Every failure path — transport error, non-200 status, non-array
body, or an exception inside the comprehension — returns `([], 200)`. -/
def fetch_rewards (user_address pool_id : String) (up : Upstream) :
    List RewardRecord × ℕ :=
  match up with
  | .failure => ([], 200)
  | .response status body =>
    if status ≠ 200 then ([], 200)
    else
      match body with
      | .list rs =>
        match processRewards pool_id rs with
        | some recs => (recs, 200)
        | none => ([], 200)
      | _ => ([], 200)

/-- Spec-side description of the rewards filter, written from the spec's
words: a record is included iff its `pool` field equals the pool id and its
`coin_type` ends with the literal suffix `::navx::NAVX`; the included
amount is the upstream amount divided by 1e9 and `token_price` defaults to
`0.144426003098488` when absent (absent `pool`/`coin_type` read as `""`,
matching the pass-through defaults of section 3 of the spec). -/
def spec_reward (pool_id : String) (r : PyVal) : Option RewardRecord :=
  match r with
  | .dict fs =>
    match (fs.lookup "coin_type").getD (.str "") with
    | .str ct =>
      if pyEqStr ((fs.lookup "pool").getD (.str "")) pool_id && ct.endsWith navxSuffix then
        some { amount := ((pyFloat ((fs.lookup "amount").getD (.num 0))).getD 0) / 1000000000
               timestamp := (fs.lookup "timestamp").getD (.str "")
               token_price := (pyFloat ((fs.lookup "token_price").getD (.num tpDefault))).getD 0 }
      else none
    | _ => none
  | _ => none

/-- A rewards array element on which the comprehension cannot raise: a dict
whose `amount` and `token_price` coerce with `float` and whose `coin_type`
(if present) is a string. -/
def CleanReward (r : PyVal) : Prop :=
  ∃ fs, r = .dict fs ∧
    (∃ q, pyFloat ((fs.lookup "amount").getD (.num 0)) = some q) ∧
    (∃ q, pyFloat ((fs.lookup "token_price").getD (.num tpDefault)) = some q) ∧
    (∃ s, (fs.lookup "coin_type").getD (.str "") = .str s)

/-- pandas `Series.mean()` over an exact-rational column. -/
def mean (l : List ℚ) : ℚ := l.sum / l.length

namespace LR

/-- A fitted row: the feature pair `(sui_price, tvl)` with its target
`apr`, i.e. one row of `X` zipped with `y`. -/
abbrev Row : Type := (ℚ × ℚ) × ℚ

/-- First feature of a row. -/
def x1 (z : Row) : ℚ := z.1.1

/-- Second feature of a row. -/
def x2 (z : Row) : ℚ := z.1.2

/-- Target value of a row. -/
def yv (z : Row) : ℚ := z.2

/-- Sum of a function over the data rows. -/
def lsum (zs : List Row) (f : Row → ℚ) : ℚ := (zs.map f).sum

/-- The number of rows as a rational. -/
def n (zs : List Row) : ℚ := zs.length

/-- Mean of the first feature. -/
def m1 (zs : List Row) : ℚ := lsum zs x1 / n zs

/-- Mean of the second feature. -/
def m2 (zs : List Row) : ℚ := lsum zs x2 / n zs

/-- Mean of the target. -/
def my (zs : List Row) : ℚ := lsum zs yv / n zs

/-- Centred second moment of feature 1. -/
def s11 (zs : List Row) : ℚ := lsum zs (fun z => (x1 z - m1 zs) ^ 2)

/-- Centred mixed moment of the features. -/
def s12 (zs : List Row) : ℚ := lsum zs (fun z => (x1 z - m1 zs) * (x2 z - m2 zs))

/-- Centred second moment of feature 2. -/
def s22 (zs : List Row) : ℚ := lsum zs (fun z => (x2 z - m2 zs) ^ 2)

/-- Centred feature-1 / target moment. -/
def s1y (zs : List Row) : ℚ := lsum zs (fun z => (x1 z - m1 zs) * (yv z - my zs))

/-- Centred feature-2 / target moment. -/
def s2y (zs : List Row) : ℚ := lsum zs (fun z => (x2 z - m2 zs) * (yv z - my zs))

/-- Model of `LinearRegression().fit(X, y).coef_` (`fit_intercept=True`):
the minimum-norm least-squares solution of the centred normal equations.
When the 2×2 Gram matrix `G = [[s11,s12],[s12,s22]]` is invertible this is
Cramer's rule; when `G` is singular but nonzero it is `G⁺ (s1y, s2y)` with
`G⁺ = G / (trace G)^2` (the Moore-Penrose pseudoinverse of a rank-one PSD
matrix); when `G = 0` it is `(0, 0)`.  `normal_eqs` and `SSE_minimal`
below prove that in every case these coefficients satisfy the normal
equations and minimise the sum of squared errors, as sklearn's SVD-based
solver does. -/
def coefs (zs : List Row) : ℚ × ℚ :=
  if s11 zs * s22 zs - s12 zs * s12 zs = 0 then
    if s11 zs + s22 zs = 0 then (0, 0)
    else ((s11 zs * s1y zs + s12 zs * s2y zs) / (s11 zs + s22 zs) ^ 2,
          (s12 zs * s1y zs + s22 zs * s2y zs) / (s11 zs + s22 zs) ^ 2)
  else ((s22 zs * s1y zs - s12 zs * s2y zs) / (s11 zs * s22 zs - s12 zs * s12 zs),
        (s11 zs * s2y zs - s12 zs * s1y zs) / (s11 zs * s22 zs - s12 zs * s12 zs))

/-- Model of `LinearRegression().fit(X, y).intercept_`:
`ybar - coef . xbar`. -/
def intercept (zs : List Row) : ℚ :=
  my zs - (coefs zs).1 * m1 zs - (coefs zs).2 * m2 zs

/-- Model of `model.predict([[u, v]])[0]`. -/
def predictAt (zs : List Row) (u v : ℚ) : ℚ :=
  intercept zs + (coefs zs).1 * u + (coefs zs).2 * v

/-- Sum of squared errors of an affine model `apr ~ a + b1*x1 + b2*x2`
over the rows. -/
def SSE (zs : List Row) (a b1 b2 : ℚ) : ℚ :=
  lsum zs (fun z => (yv z - (a + b1 * x1 z + b2 * x2 z)) ^ 2)

end LR

/-- One row of the DataFrame handed to `predict_optimal_stake`
(columns `apr`, `tvl`, `sui_price`; no timestamp). -/
structure Obs where
  apr : ℚ
  tvl : ℚ
  sui_price : ℚ
deriving Repr, DecidableEq

/-- The rows of `X = df[["sui_price", "tvl"]]` zipped with `y = df["apr"]`. -/
def dataOf (df : List Obs) : List LR.Row :=
  df.map fun o => ((o.sui_price, o.tvl), o.apr)

/-- The predictor `predict_optimal_stake(df)`: `False` on `None` or fewer than 5 rows;
otherwise fit the regression of `apr` on `(sui_price, tvl)`, predict at
`X[-1:]` (the LAST row) and compare with `avg_apr * 1.1`. -/
def predict_optimal_stake (odf : Option (List Obs)) : Bool :=
  match odf with
  | none => false
  | some df =>
    if df.length < 5 then false
    else
      match df.getLast? with
      | none => false
      | some lastRow =>
        decide (LR.predictAt (dataOf df) lastRow.sui_price lastRow.tvl >
                mean (df.map Obs.apr) * (11 / 10))

/-- Response body of the `/api/predict` route. -/
inductive PredictOut where
  /-- Body `{"predict": b}` with status 200. -/
  | ok (b : Bool) : PredictOut
  /-- Body `{"error": "..."}` with status 400. -/
  | invalid : PredictOut
deriving Repr, DecidableEq

/-- The `request.get_json()` result's field `k`, when it is a JSON number
(what the jsonschema `{"type": "number"}` accepts). -/
def numField (body : PyVal) (k : String) : Option ℚ :=
  match body with
  | .dict fs =>
    match fs.lookup k with
    | some (.num q) => some q
    | _ => none
  | _ => none

/-- The `/api/predict` handler: 400 on a missing/falsy body or one failing
the schema (all of `apr`, `tvl`, `sui_price` required numeric); otherwise
build the single-row DataFrame and run `predict_optimal_stake`. -/
def predict_route (body : Option PyVal) : PredictOut × ℕ :=
  match body with
  | none => (.invalid, 400)
  | some b =>
    if pyFalsy b then (.invalid, 400)
    else
      match numField b "apr", numField b "tvl", numField b "sui_price" with
      | some a, some t, some s =>
        (.ok (predict_optimal_stake (some [{ apr := a, tvl := t, sui_price := s }])), 200)
      | _, _, _ => (.invalid, 400)

/-- Sample data shared by several witnesses: a snapshot dict whose only
field is a numeric millisecond timestamp. -/
def sampleLatest : PyVal := .dict [("lastUpdateTimestamp", .num 1700000000000)]

/-- The base quantities `sampleLatest` parses to. -/
def sampleBase : ℤ × ℚ × ℚ × ℚ :=
  (1700000000, 4908 / 1000, 52969686454591258 / 1000000000, 434833514 / 100000000)

/-- A flat five-row series used by witnesses. -/
def flatFive : List Obs :=
  List.replicate 5 { apr := 1, tvl := 1, sui_price := 1 }

namespace LR

theorem lsum_cons (z : Row) (zs : List Row) (f : Row → ℚ) :
    lsum (z :: zs) f = f z + lsum zs f := by
  simp [lsum]

theorem lsum_congr {f g : Row → ℚ} :
    ∀ {zs : List Row}, (∀ z ∈ zs, f z = g z) → lsum zs f = lsum zs g := by
  intro zs
  induction zs with
  | nil => intro _; rfl
  | cons z t ih =>
    intro h
    rw [lsum_cons, lsum_cons, h z (by simp), ih (fun w hw => h w (by simp [hw]))]

theorem lsum_const (zs : List Row) (k : ℚ) :
    lsum zs (fun _ => k) = n zs * k := by
  induction zs with
  | nil => simp [lsum, n]
  | cons z t ih =>
    rw [lsum_cons, ih]
    simp [n]
    ring

theorem lsum_smul (zs : List Row) (k : ℚ) (f : Row → ℚ) :
    lsum zs (fun z => k * f z) = k * lsum zs f := by
  induction zs with
  | nil => simp [lsum]
  | cons z t ih => rw [lsum_cons, lsum_cons, ih]; ring

theorem lsum_lin3 (zs : List Row) (c1 c2 c3 : ℚ) (f1 f2 f3 : Row → ℚ) :
    lsum zs (fun z => c1 * f1 z + c2 * f2 z + c3 * f3 z) =
      c1 * lsum zs f1 + c2 * lsum zs f2 + c3 * lsum zs f3 := by
  induction zs with
  | nil => simp [lsum]
  | cons z t ih => rw [lsum_cons, lsum_cons, lsum_cons, lsum_cons, ih]; ring

theorem lsum_quad (zs : List Row) (A B : ℚ) (f g : Row → ℚ) :
    lsum zs (fun z => (A * f z + B * g z) ^ 2) =
      A ^ 2 * lsum zs (fun z => f z ^ 2) +
        2 * A * B * lsum zs (fun z => f z * g z) +
        B ^ 2 * lsum zs (fun z => g z ^ 2) := by
  induction zs with
  | nil => simp [lsum]
  | cons z t ih =>
    rw [lsum_cons, lsum_cons, lsum_cons, lsum_cons, ih]
    ring

theorem lsum_nonneg {zs : List Row} {f : Row → ℚ} (h : ∀ z ∈ zs, 0 ≤ f z) :
    0 ≤ lsum zs f := by
  induction zs with
  | nil => simp [lsum]
  | cons z t ih =>
    rw [lsum_cons]
    have h1 := h z (by simp)
    have h2 := ih (fun w hw => h w (by simp [hw]))
    linarith

theorem lsum_sq_zero {zs : List Row} {f : Row → ℚ}
    (h : lsum zs (fun z => f z ^ 2) = 0) : ∀ z ∈ zs, f z = 0 := by
  induction zs with
  | nil => simp
  | cons z t ih =>
    rw [lsum_cons] at h
    have ht : 0 ≤ lsum t (fun z => f z ^ 2) :=
      lsum_nonneg (fun w _ => sq_nonneg (f w))
    have hz : f z ^ 2 = 0 := by nlinarith [sq_nonneg (f z)]
    intro w hw
    rcases List.mem_cons.mp hw with hwz | hwt
    · rw [hwz]
      exact (pow_eq_zero_iff (by norm_num)).mp hz
    · exact ih (by linarith [sq_nonneg (f z)]) w hwt

theorem n_ne_zero {zs : List Row} (h : zs ≠ []) : n zs ≠ 0 := by
  simp only [n, ne_eq, Nat.cast_eq_zero, List.length_eq_zero]
  exact h

theorem s11_nonneg (zs : List Row) : 0 ≤ s11 zs :=
  lsum_nonneg (fun z _ => sq_nonneg _)

theorem s22_nonneg (zs : List Row) : 0 ≤ s22 zs :=
  lsum_nonneg (fun z _ => sq_nonneg _)

theorem lsum_center1 {zs : List Row} (h : zs ≠ []) :
    lsum zs (fun z => x1 z - m1 zs) = 0 := by
  have e : lsum zs (fun z => x1 z - m1 zs) =
      1 * lsum zs x1 + (-(m1 zs)) * lsum zs (fun _ => (1 : ℚ)) + 0 * lsum zs x1 := by
    rw [← lsum_lin3 zs 1 (-(m1 zs)) 0 x1 (fun _ => (1 : ℚ)) x1]
    exact lsum_congr (fun z _ => by ring)
  rw [e, lsum_const, m1]
  field_simp [n_ne_zero h]

theorem lsum_center2 {zs : List Row} (h : zs ≠ []) :
    lsum zs (fun z => x2 z - m2 zs) = 0 := by
  have e : lsum zs (fun z => x2 z - m2 zs) =
      1 * lsum zs x2 + (-(m2 zs)) * lsum zs (fun _ => (1 : ℚ)) + 0 * lsum zs x2 := by
    rw [← lsum_lin3 zs 1 (-(m2 zs)) 0 x2 (fun _ => (1 : ℚ)) x2]
    exact lsum_congr (fun z _ => by ring)
  rw [e, lsum_const, m2]
  field_simp [n_ne_zero h]

theorem lsum_centery {zs : List Row} (h : zs ≠ []) :
    lsum zs (fun z => yv z - my zs) = 0 := by
  have e : lsum zs (fun z => yv z - my zs) =
      1 * lsum zs yv + (-(my zs)) * lsum zs (fun _ => (1 : ℚ)) + 0 * lsum zs yv := by
    rw [← lsum_lin3 zs 1 (-(my zs)) 0 yv (fun _ => (1 : ℚ)) yv]
    exact lsum_congr (fun z _ => by ring)
  rw [e, lsum_const, my]
  field_simp [n_ne_zero h]

/-- In the singular, nonzero-trace case the centred moments satisfy
`s22 * s1y = s12 * s2y` (the right-hand side of the normal equations lies
in the column space of the Gram matrix). -/
theorem rank1_rel1 {zs : List Row}
    (hdet : s11 zs * s22 zs - s12 zs * s12 zs = 0) :
    s22 zs * s1y zs = s12 zs * s2y zs := by
  have hq := lsum_quad zs (s22 zs) (-(s12 zs))
    (fun z => x1 z - m1 zs) (fun z => x2 z - m2 zs)
  have hz : lsum zs
      (fun z => (s22 zs * (x1 z - m1 zs) + -(s12 zs) * (x2 z - m2 zs)) ^ 2) = 0 := by
    rw [hq]
    show s22 zs ^ 2 * s11 zs + 2 * s22 zs * -(s12 zs) * s12 zs + (-(s12 zs)) ^ 2 * s22 zs = 0
    linear_combination (s22 zs) * hdet
  have hterm := lsum_sq_zero hz
  have e1 : lsum zs (fun z => (s22 zs * (x1 z - m1 zs)) * (yv z - my zs)) =
      lsum zs (fun z => (s12 zs * (x2 z - m2 zs)) * (yv z - my zs)) := by
    refine lsum_congr (fun z hz2 => ?_)
    have := hterm z hz2
    have hx : s22 zs * (x1 z - m1 zs) = s12 zs * (x2 z - m2 zs) := by linarith
    rw [hx]
  have e2 : lsum zs (fun z => (s22 zs * (x1 z - m1 zs)) * (yv z - my zs)) =
      s22 zs * s1y zs := by
    rw [s1y, ← lsum_smul]
    exact lsum_congr (fun z _ => by ring)
  have e3 : lsum zs (fun z => (s12 zs * (x2 z - m2 zs)) * (yv z - my zs)) =
      s12 zs * s2y zs := by
    rw [s2y, ← lsum_smul]
    exact lsum_congr (fun z _ => by ring)
  rw [← e2, e1, e3]

/-- Companion of `rank1_rel1`: `s11 * s2y = s12 * s1y`. -/
theorem rank1_rel2 {zs : List Row}
    (hdet : s11 zs * s22 zs - s12 zs * s12 zs = 0) :
    s11 zs * s2y zs = s12 zs * s1y zs := by
  have hq := lsum_quad zs (-(s12 zs)) (s11 zs)
    (fun z => x1 z - m1 zs) (fun z => x2 z - m2 zs)
  have hz : lsum zs
      (fun z => (-(s12 zs) * (x1 z - m1 zs) + s11 zs * (x2 z - m2 zs)) ^ 2) = 0 := by
    rw [hq]
    show (-(s12 zs)) ^ 2 * s11 zs + 2 * -(s12 zs) * s11 zs * s12 zs + s11 zs ^ 2 * s22 zs = 0
    linear_combination (s11 zs) * hdet
  have hterm := lsum_sq_zero hz
  have e1 : lsum zs (fun z => (s11 zs * (x2 z - m2 zs)) * (yv z - my zs)) =
      lsum zs (fun z => (s12 zs * (x1 z - m1 zs)) * (yv z - my zs)) := by
    refine lsum_congr (fun z hz2 => ?_)
    have := hterm z hz2
    have hx : s11 zs * (x2 z - m2 zs) = s12 zs * (x1 z - m1 zs) := by linarith
    rw [hx]
  have e2 : lsum zs (fun z => (s11 zs * (x2 z - m2 zs)) * (yv z - my zs)) =
      s11 zs * s2y zs := by
    rw [s2y, ← lsum_smul]
    exact lsum_congr (fun z _ => by ring)
  have e3 : lsum zs (fun z => (s12 zs * (x1 z - m1 zs)) * (yv z - my zs)) =
      s12 zs * s1y zs := by
    rw [s1y, ← lsum_smul]
    exact lsum_congr (fun z _ => by ring)
  rw [← e2, e1, e3]

/-- The modelled sklearn coefficients satisfy the centred normal equations
in every case (invertible, rank-one and zero Gram matrix). -/
theorem normal_eqs (zs : List Row) :
    s11 zs * (coefs zs).1 + s12 zs * (coefs zs).2 = s1y zs ∧
    s12 zs * (coefs zs).1 + s22 zs * (coefs zs).2 = s2y zs := by
  by_cases hdet : s11 zs * s22 zs - s12 zs * s12 zs = 0
  · by_cases htr : s11 zs + s22 zs = 0
    · have ha : s11 zs = 0 := by nlinarith [s11_nonneg zs, s22_nonneg zs]
      have hc : s22 zs = 0 := by nlinarith [s11_nonneg zs, s22_nonneg zs]
      have ha2 : lsum zs (fun z => (x1 z - m1 zs) ^ 2) = 0 := by
        simpa only [s11] using ha
      have hc2 : lsum zs (fun z => (x2 z - m2 zs) ^ 2) = 0 := by
        simpa only [s22] using hc
      have hx1 := lsum_sq_zero ha2
      have h1y : s1y zs = 0 := by
        have e : lsum zs (fun z => (x1 z - m1 zs) * (yv z - my zs)) =
            lsum zs (fun _ => (0 : ℚ)) :=
          lsum_congr (fun z hz => by rw [hx1 z hz]; ring)
        rw [s1y, e, lsum_const]
        ring
      have h2y : s2y zs = 0 := by
        have hx2 := lsum_sq_zero hc2
        have e : lsum zs (fun z => (x2 z - m2 zs) * (yv z - my zs)) =
            lsum zs (fun _ => (0 : ℚ)) :=
          lsum_congr (fun z hz => by rw [hx2 z hz]; ring)
        rw [s2y, e, lsum_const]
        ring
      have hco : coefs zs = (0, 0) := by
        rw [coefs, if_pos hdet, if_pos htr]
      rw [hco, h1y, h2y]
      norm_num
    · have h1 := rank1_rel1 hdet
      have h2 := rank1_rel2 hdet
      have hco : coefs zs =
          ((s11 zs * s1y zs + s12 zs * s2y zs) / (s11 zs + s22 zs) ^ 2,
           (s12 zs * s1y zs + s22 zs * s2y zs) / (s11 zs + s22 zs) ^ 2) := by
        rw [coefs, if_pos hdet, if_neg htr]
      rw [hco]
      constructor
      · field_simp
        linear_combination (-(s11 zs + s22 zs)) * h1 + (-(s1y zs)) * hdet
      · field_simp
        linear_combination (-(s11 zs + s22 zs)) * h2 + (-(s2y zs)) * hdet
  · have hco : coefs zs =
        ((s22 zs * s1y zs - s12 zs * s2y zs) / (s11 zs * s22 zs - s12 zs * s12 zs),
         (s11 zs * s2y zs - s12 zs * s1y zs) / (s11 zs * s22 zs - s12 zs * s12 zs)) := by
      rw [coefs, if_neg hdet]
    rw [hco]
    constructor
    · field_simp
      ring
    · field_simp
      ring

/-- The modelled sklearn fit globally minimises the sum of squared errors:
it is an ordinary least-squares fit. -/
theorem SSE_minimal (zs : List Row) (hne : zs ≠ []) (a b1 b2 : ℚ) :
    SSE zs (intercept zs) (coefs zs).1 (coefs zs).2 ≤ SSE zs a b1 b2 := by
  set c1 := (coefs zs).1 with hc1
  set c2 := (coefs zs).2 with hc2
  have hNE := normal_eqs zs
  rw [← hc1, ← hc2] at hNE
  -- the residual of the fitted model, in centred form
  set u : Row → ℚ :=
    fun z => (yv z - my zs) - c1 * (x1 z - m1 zs) - c2 * (x2 z - m2 zs) with hu
  have hru : ∀ z : Row, yv z - (intercept zs + c1 * x1 z + c2 * x2 z) = u z := by
    intro z
    rw [hu]
    simp only [intercept, ← hc1, ← hc2]
    ring
  have h0 : lsum zs u = 0 := by
    have e : lsum zs u =
        1 * lsum zs (fun z => yv z - my zs) +
          (-c1) * lsum zs (fun z => x1 z - m1 zs) +
          (-c2) * lsum zs (fun z => x2 z - m2 zs) := by
      rw [← lsum_lin3]
      exact lsum_congr (fun z _ => by rw [hu]; ring)
    rw [e, lsum_center1 hne, lsum_center2 hne, lsum_centery hne]
    ring
  have h1 : lsum zs (fun z => (x1 z - m1 zs) * u z) = 0 := by
    have e : lsum zs (fun z => (x1 z - m1 zs) * u z) =
        1 * lsum zs (fun z => (x1 z - m1 zs) * (yv z - my zs)) +
          (-c1) * lsum zs (fun z => (x1 z - m1 zs) ^ 2) +
          (-c2) * lsum zs (fun z => (x1 z - m1 zs) * (x2 z - m2 zs)) := by
      rw [← lsum_lin3]
      exact lsum_congr (fun z _ => by rw [hu]; ring)
    rw [e]
    have := hNE.1
    simp only [s11, s12, s1y] at this
    linarith
  have h2 : lsum zs (fun z => (x2 z - m2 zs) * u z) = 0 := by
    have e : lsum zs (fun z => (x2 z - m2 zs) * u z) =
        1 * lsum zs (fun z => (x2 z - m2 zs) * (yv z - my zs)) +
          (-c1) * lsum zs (fun z => (x1 z - m1 zs) * (x2 z - m2 zs)) +
          (-c2) * lsum zs (fun z => (x2 z - m2 zs) ^ 2) := by
      rw [← lsum_lin3]
      exact lsum_congr (fun z _ => by rw [hu]; ring)
    rw [e]
    have := hNE.2
    simp only [s12, s22, s2y] at this
    linarith
  have hx1u : lsum zs (fun z => x1 z * u z) = 0 := by
    have e : lsum zs (fun z => x1 z * u z) =
        1 * lsum zs (fun z => (x1 z - m1 zs) * u z) +
          (m1 zs) * lsum zs u + 0 * lsum zs u := by
      rw [← lsum_lin3]
      exact lsum_congr (fun z _ => by ring)
    rw [e, h0, h1]
    ring
  have hx2u : lsum zs (fun z => x2 z * u z) = 0 := by
    have e : lsum zs (fun z => x2 z * u z) =
        1 * lsum zs (fun z => (x2 z - m2 zs) * u z) +
          (m2 zs) * lsum zs u + 0 * lsum zs u := by
      rw [← lsum_lin3]
      exact lsum_congr (fun z _ => by ring)
    rw [e, h0, h2]
    ring
  -- the gap between the competitor model and the fitted one, pointwise
  set d : Row → ℚ :=
    fun z => (intercept zs - a) + (c1 - b1) * x1 z + (c2 - b2) * x2 z with hd
  have hsplit : SSE zs a b1 b2 =
      lsum zs (fun z => u z ^ 2) + 2 * lsum zs (fun z => u z * d z) +
        lsum zs (fun z => d z ^ 2) := by
    have e : SSE zs a b1 b2 = lsum zs (fun z => (1 * u z + 1 * d z) ^ 2) := by
      rw [SSE]
      refine lsum_congr (fun z _ => ?_)
      rw [← hru z, hd]
      ring
    rw [e, lsum_quad]
    ring
  have hcross : lsum zs (fun z => u z * d z) = 0 := by
    have e : lsum zs (fun z => u z * d z) =
        (intercept zs - a) * lsum zs u +
          (c1 - b1) * lsum zs (fun z => x1 z * u z) +
          (c2 - b2) * lsum zs (fun z => x2 z * u z) := by
      rw [← lsum_lin3]
      exact lsum_congr (fun z _ => by rw [hd]; ring)
    rw [e, h0, hx1u, hx2u]
    ring
  have hfit : SSE zs (intercept zs) c1 c2 = lsum zs (fun z => u z ^ 2) := by
    rw [SSE]
    exact lsum_congr (fun z _ => by rw [← hru z])
  have hdpos : 0 ≤ lsum zs (fun z => d z ^ 2) :=
    lsum_nonneg (fun z _ => sq_nonneg _)
  rw [hfit, hsplit, hcross]
  linarith

end LR

theorem simulate_default_none (now days : ℤ) :
    simulate_historical_data (default_data now) now days = none := by
  have h : parseSnapshot (default_data now) now = none := by
    simp [parseSnapshot, default_data, pyGet, asNum]
  simp [simulate_historical_data, h]

/-- C1: with a 200 pools response containing no entry whose `coinType`
equals the pool id, `fetch_volo_data` does NOT return the documented
default snapshot: because `default_data` stores its timestamp as a string
and `simulate_historical_data` divides that string by 1000 (a TypeError),
the fallback always fails and the route answers the "default data
simulation failed" error with status 500. -/
theorem fetch_volo_data_no_match_returns_500 (pool_id : String) (days now : ℤ)
    (pools : List PyVal) (h : findPool pool_id pools = some none) :
    fetch_volo_data pool_id days now (.response 200 (.list pools)) =
      (.err .defaultSimFailed, 500) := by
  simp [fetch_volo_data, h, simulate_default_none]

theorem fetch_volo_data_no_match_returns_500_witness :
    findPool "0x2::sui::SUI" ([] : List PyVal) = some none ∧
    fetch_volo_data "0x2::sui::SUI" 30 1760227200000 (.response 200 (.list [])) =
      (.err .defaultSimFailed, 500) :=
  ⟨rfl, fetch_volo_data_no_match_returns_500 "0x2::sui::SUI" 30 1760227200000 [] rfl⟩

/-- C4: a pools entry that matches the pool id but carries no
`lastUpdateTimestamp` key is NOT returned successfully with per-field
defaults: the string timestamp default makes `simulate_historical_data`
raise, so `fetch_volo_data` answers the "simulation failed" error with
status 500 instead of a success with the entry's apy. -/
theorem fetch_volo_data_match_missing_timestamp_500 (pool_id : String)
    (days now : ℤ) (fs : List (String × PyVal))
    (hcoin : fs.lookup "coinType" = some (.str pool_id))
    (hts : fs.lookup "lastUpdateTimestamp" = none) :
    fetch_volo_data pool_id days now (.response 200 (.list [.dict fs])) =
      (.err .simFailed, 500) := by
  have hfind : findPool pool_id [.dict fs] = some (some (.dict fs)) := by
    simp [findPool, hcoin, pyEqStr]
  have hsim : simulate_historical_data (.dict fs) now days = none := by
    simp [simulate_historical_data, parseSnapshot, pyGet, hts, asNum]
  simp [fetch_volo_data, hfind, hsim]

theorem fetch_volo_data_match_missing_timestamp_500_witness :
    [("coinType", PyVal.str "0x2::sui::SUI"),
     ("supplyIncentiveApyInfo", PyVal.dict [("apy", PyVal.str "10.0")])].lookup
        "coinType" = some (.str "0x2::sui::SUI") ∧
    [("coinType", PyVal.str "0x2::sui::SUI"),
     ("supplyIncentiveApyInfo", PyVal.dict [("apy", PyVal.str "10.0")])].lookup
        "lastUpdateTimestamp" = none ∧
    fetch_volo_data "0x2::sui::SUI" 30 1760227200000
        (.response 200 (.list [.dict
          [("coinType", PyVal.str "0x2::sui::SUI"),
           ("supplyIncentiveApyInfo", PyVal.dict [("apy", PyVal.str "10.0")])]])) =
      (.err .simFailed, 500) :=
  ⟨rfl, rfl,
    fetch_volo_data_match_missing_timestamp_500 "0x2::sui::SUI" 30 1760227200000
      _ rfl rfl⟩

/-- Not a claim theorem; documents the divergence behind C4: the same
matching entry WITH a numeric millisecond timestamp does succeed, with
`latest.apr` equal to the entry's apy `"10.0"` coerced to float. -/
theorem fetch_volo_data_match_numeric_timestamp_ok :
    VoloOut.aprOf (fetch_volo_data "0x2::sui::SUI" 30 0
        (.response 200 (.list [.dict
          [("coinType", PyVal.str "0x2::sui::SUI"),
           ("supplyIncentiveApyInfo", PyVal.dict [("apy", PyVal.str "10.0")]),
           ("lastUpdateTimestamp", PyVal.num 1700000000000)]]))).1 = some 10 ∧
    VoloOut.histLen (fetch_volo_data "0x2::sui::SUI" 30 0
        (.response 200 (.list [.dict
          [("coinType", PyVal.str "0x2::sui::SUI"),
           ("supplyIncentiveApyInfo", PyVal.dict [("apy", PyVal.str "10.0")]),
           ("lastUpdateTimestamp", PyVal.num 1700000000000)]]))).1 = 30 ∧
    (fetch_volo_data "0x2::sui::SUI" 30 0
        (.response 200 (.list [.dict
          [("coinType", PyVal.str "0x2::sui::SUI"),
           ("supplyIncentiveApyInfo", PyVal.dict [("apy", PyVal.str "10.0")]),
           ("lastUpdateTimestamp", PyVal.num 1700000000000)]]))).2 = 200 := by
  have hfind : findPool "0x2::sui::SUI"
      [.dict [("coinType", PyVal.str "0x2::sui::SUI"),
              ("supplyIncentiveApyInfo", PyVal.dict [("apy", PyVal.str "10.0")]),
              ("lastUpdateTimestamp", PyVal.num 1700000000000)]] =
      some (some (.dict [("coinType", PyVal.str "0x2::sui::SUI"),
              ("supplyIncentiveApyInfo", PyVal.dict [("apy", PyVal.str "10.0")]),
              ("lastUpdateTimestamp", PyVal.num 1700000000000)])) := rfl
  have hparse : parseSnapshot (.dict
      [("coinType", PyVal.str "0x2::sui::SUI"),
       ("supplyIncentiveApyInfo", PyVal.dict [("apy", PyVal.str "10.0")]),
       ("lastUpdateTimestamp", PyVal.num 1700000000000)]) 0 =
      some (truncToInt ((1700000000000 : ℚ) / 1000), ((100 : ℕ) : ℚ) / 10 ^ 1,
        (52969686454591258 : ℚ) / 1000000000, 434833514 / 100000000) := rfl
  have hbuild : buildLatest (.dict
      [("coinType", PyVal.str "0x2::sui::SUI"),
       ("supplyIncentiveApyInfo", PyVal.dict [("apy", PyVal.str "10.0")]),
       ("lastUpdateTimestamp", PyVal.num 1700000000000)]) 0 =
      some (((100 : ℕ) : ℚ) / 10 ^ 1, (52969686454591258 : ℚ) / 1000000000,
        434833514 / 100000000, .num 1700000000000) := rfl
  have hsim : simulate_historical_data (.dict
      [("coinType", PyVal.str "0x2::sui::SUI"),
       ("supplyIncentiveApyInfo", PyVal.dict [("apy", PyVal.str "10.0")]),
       ("lastUpdateTimestamp", PyVal.num 1700000000000)]) 0 30 =
      some (mkSeries (truncToInt ((1700000000000 : ℚ) / 1000),
        ((100 : ℕ) : ℚ) / 10 ^ 1, (52969686454591258 : ℚ) / 1000000000,
        434833514 / 100000000) 30) := by
    rw [simulate_historical_data, hparse]
  refine ⟨?_, ?_, ?_⟩ <;>
    simp [fetch_volo_data, hfind, hsim, hbuild, VoloOut.aprOf, VoloOut.histLen,
      mkSeries] <;>
    norm_num

theorem list_sum_const (l : List ℚ) (c : ℚ) (h : ∀ x ∈ l, x = c) :
    l.sum = l.length * c := by
  induction l with
  | nil => simp
  | cons y t ih =>
    simp only [List.sum_cons, List.length_cons, h y (by simp)]
    rw [ih (fun w hw => h w (by simp [hw]))]
    push_cast
    ring

theorem mean_const (l : List ℚ) (c : ℚ) (hne : l ≠ []) (h : ∀ x ∈ l, x = c) :
    mean l = c := by
  have hn : (l.length : ℚ) ≠ 0 :=
    Nat.cast_ne_zero.mpr (fun h0 => hne (List.length_eq_zero.mp h0))
  rw [mean, list_sum_const l c h]
  field_simp

theorem LR.means_const (zs : List LR.Row) (z0 : LR.Row) (hne : zs ≠ [])
    (h : ∀ z ∈ zs, z = z0) :
    LR.m1 zs = LR.x1 z0 ∧ LR.m2 zs = LR.x2 z0 ∧ LR.my zs = LR.yv z0 := by
  have hn := LR.n_ne_zero hne
  refine ⟨?_, ?_, ?_⟩
  · have e : LR.lsum zs LR.x1 = LR.lsum zs (fun _ => LR.x1 z0) :=
      LR.lsum_congr (fun z hz => by rw [h z hz])
    rw [LR.m1, e, LR.lsum_const]
    field_simp
  · have e : LR.lsum zs LR.x2 = LR.lsum zs (fun _ => LR.x2 z0) :=
      LR.lsum_congr (fun z hz => by rw [h z hz])
    rw [LR.m2, e, LR.lsum_const]
    field_simp
  · have e : LR.lsum zs LR.yv = LR.lsum zs (fun _ => LR.yv z0) :=
      LR.lsum_congr (fun z hz => by rw [h z hz])
    rw [LR.my, e, LR.lsum_const]
    field_simp

/-- On a constant data set the modelled sklearn fit predicts the constant
target value at every point: the Gram matrix is zero, the coefficients are
`(0, 0)` and the intercept is the target mean. -/
theorem LR.predictAt_const (zs : List LR.Row) (z0 : LR.Row) (hne : zs ≠ [])
    (h : ∀ z ∈ zs, z = z0) (u v : ℚ) :
    LR.predictAt zs u v = LR.yv z0 := by
  obtain ⟨hm1, hm2, hmy⟩ := LR.means_const zs z0 hne h
  have hs11 : LR.s11 zs = 0 := by
    have e : LR.lsum zs (fun z => (LR.x1 z - LR.m1 zs) ^ 2) =
        LR.lsum zs (fun _ => (0 : ℚ)) :=
      LR.lsum_congr (fun z hz => by rw [h z hz, hm1]; ring)
    rw [LR.s11, e, LR.lsum_const]
    ring
  have hs12 : LR.s12 zs = 0 := by
    have e : LR.lsum zs (fun z => (LR.x1 z - LR.m1 zs) * (LR.x2 z - LR.m2 zs)) =
        LR.lsum zs (fun _ => (0 : ℚ)) :=
      LR.lsum_congr (fun z hz => by rw [h z hz, hm1]; ring)
    rw [LR.s12, e, LR.lsum_const]
    ring
  have hs22 : LR.s22 zs = 0 := by
    have e : LR.lsum zs (fun z => (LR.x2 z - LR.m2 zs) ^ 2) =
        LR.lsum zs (fun _ => (0 : ℚ)) :=
      LR.lsum_congr (fun z hz => by rw [h z hz, hm2]; ring)
    rw [LR.s22, e, LR.lsum_const]
    ring
  have hco : LR.coefs zs = (0, 0) := by
    rw [LR.coefs, hs11, hs12, hs22]
    norm_num
  rw [LR.predictAt, LR.intercept, hco]
  simp [hmy]

/-- C8 counterexample: a flat five-row series with constant NEGATIVE apr
makes `predict_optimal_stake` return `True`: the predicted value equals the
(negative) mean, which IS strictly greater than 1.1 times itself. -/
theorem predict_flat_negative_apr_true :
    predict_optimal_stake
      (some (List.replicate 5 { apr := -1, tvl := 1, sui_price := 1 })) = true := by
  have hdata : dataOf (List.replicate 5 { apr := -1, tvl := 1, sui_price := 1 }) =
      List.replicate 5 (((1 : ℚ), (1 : ℚ)), (-1 : ℚ)) := by
    simp [dataOf, List.map_replicate]
  have hpa : LR.predictAt
      (dataOf (List.replicate 5 { apr := -1, tvl := 1, sui_price := 1 })) 1 1 = -1 := by
    rw [hdata]
    exact LR.predictAt_const _ (((1 : ℚ), (1 : ℚ)), (-1 : ℚ)) (by simp)
      (fun z hz => List.eq_of_mem_replicate hz) 1 1
  have hm : mean ((List.replicate 5
      ({ apr := -1, tvl := 1, sui_price := 1 } : Obs)).map Obs.apr) = -1 := by
    rw [List.map_replicate]
    exact mean_const _ _ (by simp) (fun x hx => List.eq_of_mem_replicate hx)
  have hlast : (List.replicate 5
      ({ apr := -1, tvl := 1, sui_price := 1 } : Obs)).getLast? =
      some { apr := -1, tvl := 1, sui_price := 1 } := rfl
  rw [predict_optimal_stake]
  simp only [hlast, List.length_replicate]
  rw [if_neg (by norm_num)]
  simp only [decide_eq_true_eq]
  show LR.predictAt _ (1 : ℚ) (1 : ℚ) > _
  rw [hpa, hm]
  norm_num

/-- C8 amended: a flat series of at least 5 rows with NONNEGATIVE constant
apr makes `predict_optimal_stake` return `False`: the predicted value
equals the mean, and a nonnegative mean is never strictly greater than 1.1
times itself. -/
theorem predict_flat_nonneg_apr_false (k : ℕ) (o0 : Obs) (hk : 5 ≤ k)
    (hpos : 0 ≤ o0.apr) :
    predict_optimal_stake (some (List.replicate k o0)) = false := by
  have hne : (List.replicate k o0) ≠ [] := by
    intro h
    rw [← List.length_eq_zero] at h
    simp at h
    omega
  have hdata : dataOf (List.replicate k o0) =
      List.replicate k ((o0.sui_price, o0.tvl), o0.apr) := by
    simp [dataOf, List.map_replicate]
  obtain ⟨lastRow, hlast⟩ :
      ∃ a, (List.replicate k o0).getLast? = some a :=
    Option.isSome_iff_exists.mp (List.getLast?_isSome.mpr hne)
  have hmem : lastRow ∈ List.replicate k o0 := by
    rcases List.mem_getLast?_eq_getLast (by simpa using hlast) with ⟨hne2, rfl⟩
    exact List.getLast_mem hne2
  have hlr : lastRow = o0 := List.eq_of_mem_replicate hmem
  have hpa : LR.predictAt (dataOf (List.replicate k o0))
      lastRow.sui_price lastRow.tvl = o0.apr := by
    rw [hdata]
    exact LR.predictAt_const _ ((o0.sui_price, o0.tvl), o0.apr)
      (by simpa using hne) (fun z hz => List.eq_of_mem_replicate hz) _ _
  have hm : mean ((List.replicate k o0).map Obs.apr) = o0.apr := by
    rw [List.map_replicate]
    exact mean_const _ _ (by simpa using hne)
      (fun x hx => List.eq_of_mem_replicate hx)
  rw [predict_optimal_stake]
  simp only [hlast, List.length_replicate]
  rw [if_neg (by omega)]
  simp only [decide_eq_false_iff_not]
  show ¬ LR.predictAt _ _ _ > _
  rw [hpa, hm]
  intro hcon
  nlinarith

theorem predict_flat_nonneg_apr_false_witness :
    5 ≤ 5 ∧ (0 : ℚ) ≤ ({ apr := 1, tvl := 1, sui_price := 1 } : Obs).apr ∧
    predict_optimal_stake
      (some (List.replicate 5 ({ apr := 1, tvl := 1, sui_price := 1 } : Obs))) = false :=
  ⟨by omega, by norm_num,
   predict_flat_nonneg_apr_false 5 { apr := 1, tvl := 1, sui_price := 1 }
     (by omega) (by norm_num)⟩

/-- C5: `fetch_rewards` never fails its caller: the status component is
always 200, and on a transport/parse failure or any non-200 upstream
status the rewards list is empty. -/
theorem fetch_rewards_never_fails (user_address pool_id : String) (up : Upstream) :
    (fetch_rewards user_address pool_id up).2 = 200 ∧
    ((∀ s b, up = .response s b → s ≠ 200) →
      (fetch_rewards user_address pool_id up).1 = []) := by
  cases up with
  | failure => exact ⟨rfl, fun _ => rfl⟩
  | response s b =>
    by_cases hs : s = 200
    · subst hs
      refine ⟨?_, fun h => absurd rfl (h 200 b rfl)⟩
      cases b with
      | list rs =>
        cases h : processRewards pool_id rs with
        | none => simp [fetch_rewards, h]
        | some recs => simp [fetch_rewards, h]
      | null => rfl
      | num q => rfl
      | str t => rfl
      | dict fs => rfl
    · constructor
      · simp [fetch_rewards, hs]
      · intro _
        simp [fetch_rewards, hs]

theorem fetch_rewards_never_fails_witness :
    (fetch_rewards "0xuser" "0xpool" .failure).2 = 200 ∧
    (fetch_rewards "0xuser" "0xpool" .failure).1 = [] :=
  ⟨(fetch_rewards_never_fails "0xuser" "0xpool" .failure).1,
   (fetch_rewards_never_fails "0xuser" "0xpool" .failure).2
     (fun _ _ h => Upstream.noConfusion h)⟩

/-- C9: `predict_optimal_stake` returns `False` on an absent frame and on
any frame with fewer than 5 rows, without raising. -/
theorem predict_insufficient_data_false (odf : Option (List Obs))
    (h : odf = none ∨ ∃ df, odf = some df ∧ df.length < 5) :
    predict_optimal_stake odf = false := by
  rcases h with h | ⟨df, rfl, hlen⟩
  · rw [h]
    rfl
  · simp [predict_optimal_stake, hlen]

theorem predict_insufficient_data_false_witness :
    ((some ([] : List Obs) = none ∨
      ∃ df, some ([] : List Obs) = some df ∧ df.length < 5)) ∧
    predict_optimal_stake (some ([] : List Obs)) = false :=
  ⟨Or.inr ⟨[], rfl, by decide⟩,
   predict_insufficient_data_false (some []) (Or.inr ⟨[], rfl, by decide⟩)⟩

/-- C3: any body accepted by the predict schema (`apr`, `tvl`, `sui_price`
all present and numeric) gets a 200 response with `predict = false`,
because the single-row frame is rejected by the predictor's
minimum-length guard. -/
theorem predict_route_valid_body_false (body : PyVal) (a t s : ℚ)
    (ha : numField body "apr" = some a)
    (ht : numField body "tvl" = some t)
    (hs : numField body "sui_price" = some s) :
    predict_route (some body) = (.ok false, 200) := by
  match body with
  | .dict fs =>
    have hfalsy : pyFalsy (.dict fs) = false := by
      cases fs with
      | nil => simp [numField] at ha
      | cons p rest => simp [pyFalsy]
    have hone : predict_optimal_stake
        (some [{ apr := a, tvl := t, sui_price := s }]) = false := rfl
    simp [predict_route, hfalsy, ha, ht, hs, hone]
  | .null => simp [numField] at ha
  | .num q => simp [numField] at ha
  | .str t2 => simp [numField] at ha
  | .list l => simp [numField] at ha

theorem predict_route_valid_body_false_witness :
    numField (.dict [("apr", .num 5), ("tvl", .num 100), ("sui_price", .num 2)])
        "apr" = some 5 ∧
    numField (.dict [("apr", .num 5), ("tvl", .num 100), ("sui_price", .num 2)])
        "tvl" = some 100 ∧
    numField (.dict [("apr", .num 5), ("tvl", .num 100), ("sui_price", .num 2)])
        "sui_price" = some 2 ∧
    predict_route (some (.dict
        [("apr", .num 5), ("tvl", .num 100), ("sui_price", .num 2)])) =
      (.ok false, 200) :=
  ⟨rfl, rfl, rfl,
   predict_route_valid_body_false
     (.dict [("apr", .num 5), ("tvl", .num 100), ("sui_price", .num 2)])
     5 100 2 rfl rfl rfl⟩

/-- C2: on a series of at least 5 rows, `predict_optimal_stake` fits the
least-squares regression of `apr` on `(sui_price, tvl)` over ALL rows (the
first conjunct certifies the fitted coefficients minimise the sum of
squared errors against every affine competitor), predicts the APR at the
LAST row of the series (`X[-1:]`, the oldest synthetic day under the
generator's most-recent-first ordering), and returns `True` iff that
predicted APR is strictly greater than 1.1 times the mean APR of the whole
series. -/
theorem predict_optimal_stake_ols_spec (df : List Obs) (h5 : 5 ≤ df.length) :
    (∀ a b1 b2 : ℚ,
      LR.SSE (dataOf df) (LR.intercept (dataOf df))
          (LR.coefs (dataOf df)).1 (LR.coefs (dataOf df)).2 ≤
        LR.SSE (dataOf df) a b1 b2) ∧
    (∀ lastRow : Obs, df.getLast? = some lastRow →
      (predict_optimal_stake (some df) = true ↔
        LR.predictAt (dataOf df) lastRow.sui_price lastRow.tvl >
          mean (df.map Obs.apr) * (11 / 10))) := by
  have hlen : (dataOf df).length = df.length := by simp [dataOf]
  have hne : dataOf df ≠ [] := by
    intro hcon
    rw [hcon] at hlen
    simp at hlen
    omega
  refine ⟨fun a b1 b2 => LR.SSE_minimal _ hne a b1 b2, ?_⟩
  intro lastRow hlast
  have hnot : ¬ df.length < 5 := by omega
  rw [predict_optimal_stake]
  simp only [hlast, if_neg hnot, decide_eq_true_eq]

theorem predict_optimal_stake_ols_spec_witness :
    5 ≤ flatFive.length ∧
    flatFive.getLast? = some { apr := 1, tvl := 1, sui_price := 1 } ∧
    LR.SSE (dataOf flatFive) (LR.intercept (dataOf flatFive))
        (LR.coefs (dataOf flatFive)).1 (LR.coefs (dataOf flatFive)).2 ≤
      LR.SSE (dataOf flatFive) 0 0 0 ∧
    (predict_optimal_stake (some flatFive) = true ↔
      LR.predictAt (dataOf flatFive) 1 1 >
        mean (flatFive.map Obs.apr) * (11 / 10)) :=
  ⟨by simp [flatFive], rfl,
   (predict_optimal_stake_ols_spec flatFive (by simp [flatFive])).1 0 0 0,
   (predict_optimal_stake_ols_spec flatFive (by simp [flatFive])).2
     { apr := 1, tvl := 1, sui_price := 1 } rfl⟩

/-- C6: whenever the base snapshot parses (all fields numeric), row `i` of
the simulated frame carries exactly
`apr_0 * (1 + 0.01 * (i % 5))`, `tvl_0 * (1 - 0.005 * (i % 7))` and
`price_0 * (1 + 0.02 * (i % 3))`, and row 0 equals the base snapshot
exactly (identity perturbation at `i = 0`). -/
theorem simulate_record_formulas (latest : PyVal) (now days : ℤ)
    (b : ℤ × ℚ × ℚ × ℚ) (df : List Record)
    (hb : parseSnapshot latest now = some b)
    (hdf : simulate_historical_data latest now days = some df)
    (i : ℕ) (hi : i < df.length) :
    df[i]?.map Record.apr = some (b.2.1 * (1 + (1 / 100) * ((i % 5 : ℕ) : ℚ))) ∧
    df[i]?.map Record.tvl = some (b.2.2.1 * (1 - (5 / 1000) * ((i % 7 : ℕ) : ℚ))) ∧
    df[i]?.map Record.sui_price =
      some (b.2.2.2 * (1 + (2 / 100) * ((i % 3 : ℕ) : ℚ))) ∧
    (i = 0 → df[0]? = some
      { timestamp := b.1, apr := b.2.1, tvl := b.2.2.1, sui_price := b.2.2.2 }) := by
  rw [simulate_historical_data, hb] at hdf
  have hdfe : df = mkSeries b days := (Option.some.inj hdf).symm
  subst hdfe
  have hi2 : i < days.toNat := by simpa [mkSeries] using hi
  have hget : (mkSeries b days)[i]? = some
      { timestamp := b.1 - 86400 * (i : ℤ)
        apr := b.2.1 * (1 + (1 / 100) * ((i % 5 : ℕ) : ℚ))
        tvl := b.2.2.1 * (1 - (5 / 1000) * ((i % 7 : ℕ) : ℚ))
        sui_price := b.2.2.2 * (1 + (2 / 100) * ((i % 3 : ℕ) : ℚ)) } := by
    rw [mkSeries, List.getElem?_map, List.getElem?_range hi2]
    rfl
  refine ⟨by rw [hget]; rfl, by rw [hget]; rfl, by rw [hget]; rfl, ?_⟩
  intro h0
  subst h0
  rw [hget]
  norm_num

theorem simulate_record_formulas_witness :
    parseSnapshot sampleLatest 0 = some sampleBase ∧
    simulate_historical_data sampleLatest 0 30 = some (mkSeries sampleBase 30) ∧
    7 < (mkSeries sampleBase 30).length ∧
    (mkSeries sampleBase 30)[7]?.map Record.apr =
      some (sampleBase.2.1 * (1 + (1 / 100) * ((7 % 5 : ℕ) : ℚ))) := by
  have hparse : parseSnapshot sampleLatest 0 = some sampleBase := by
    have h : parseSnapshot sampleLatest 0 =
        some (truncToInt ((1700000000000 : ℚ) / 1000), 4908 / 1000,
          (52969686454591258 : ℚ) / 1000000000, 434833514 / 100000000) := rfl
    rw [h, sampleBase]
    have h2 : ((1700000000000 : ℚ) / 1000) = 1700000000 := by norm_num
    rw [truncToInt, h2]
    norm_num
  have hsim : simulate_historical_data sampleLatest 0 30 =
      some (mkSeries sampleBase 30) := by
    rw [simulate_historical_data, hparse]
  have hlen : 7 < (mkSeries sampleBase 30).length := by simp [mkSeries]
  exact ⟨hparse, hsim,  hlen,
    (simulate_record_formulas sampleLatest 0 30 sampleBase
      (mkSeries sampleBase 30) hparse hsim 7 hlen).1⟩

/-- C7: whenever the base snapshot parses, the simulated frame has exactly
`days` rows for positive `days` and is empty for `days ≤ 0`, and row `i`
is timestamped `base_time - i` days (most-recent-first ordering). -/
theorem simulate_length_and_timestamps (latest : PyVal) (now days : ℤ)
    (b : ℤ × ℚ × ℚ × ℚ) (df : List Record)
    (hb : parseSnapshot latest now = some b)
    (hdf : simulate_historical_data latest now days = some df) :
    (0 < days → (df.length : ℤ) = days) ∧
    (days ≤ 0 → df = []) ∧
    (∀ i : ℕ, i < df.length →
      df[i]?.map Record.timestamp = some (b.1 - 86400 * (i : ℤ))) := by
  rw [simulate_historical_data, hb] at hdf
  have hdfe : df = mkSeries b days := (Option.some.inj hdf).symm
  subst hdfe
  refine ⟨?_, ?_, ?_⟩
  · intro hpos
    simp only [mkSeries, List.length_map, List.length_range]
    exact Int.toNat_of_nonneg (le_of_lt hpos)
  · intro hneg
    have h0 : days.toNat = 0 := Int.toNat_of_nonpos hneg
    simp [mkSeries, h0]
  · intro i hi
    have hi2 : i < days.toNat := by simpa [mkSeries] using hi
    rw [mkSeries, List.getElem?_map, List.getElem?_range hi2]
    rfl

theorem simulate_length_and_timestamps_witness :
    parseSnapshot sampleLatest 0 = some sampleBase ∧
    simulate_historical_data sampleLatest 0 30 = some (mkSeries sampleBase 30) ∧
    ((mkSeries sampleBase 30).length : ℤ) = 30 ∧
    (mkSeries sampleBase 30)[7]?.map Record.timestamp =
      some (sampleBase.1 - 86400 * ((7 : ℕ) : ℤ)) := by
  have hparse : parseSnapshot sampleLatest 0 = some sampleBase := by
    have h : parseSnapshot sampleLatest 0 =
        some (truncToInt ((1700000000000 : ℚ) / 1000), 4908 / 1000,
          (52969686454591258 : ℚ) / 1000000000, 434833514 / 100000000) := rfl
    rw [h, sampleBase]
    have h2 : ((1700000000000 : ℚ) / 1000) = 1700000000 := by norm_num
    rw [truncToInt, h2]
    norm_num
  have hsim : simulate_historical_data sampleLatest 0 30 =
      some (mkSeries sampleBase 30) := by
    rw [simulate_historical_data, hparse]
  have hthm := simulate_length_and_timestamps sampleLatest 0 30 sampleBase
    (mkSeries sampleBase 30) hparse hsim
  exact ⟨hparse, hsim, hthm.1 (by norm_num),
    hthm.2.2 7 (by simp [mkSeries])⟩

theorem processReward_clean (pool_id : String) (r : PyVal) (h : CleanReward r) :
    processReward pool_id r = some (spec_reward pool_id r) := by
  obtain ⟨fs, rfl, ⟨qa, hqa⟩, ⟨qt, hqt⟩, ⟨ct, hct⟩⟩ := h
  by_cases hp : pyEqStr ((fs.lookup "pool").getD (.str "")) pool_id
  · by_cases hs : ct.endsWith navxSuffix
    · simp [processReward, spec_reward, hct, hp, hs, hqa, hqt]
    · simp [processReward, spec_reward, hct, hp, hs]
  · simp only [processReward, spec_reward, hct]
    rw [if_neg hp]
    have hb : (pyEqStr ((fs.lookup "pool").getD (.str "")) pool_id &&
        ct.endsWith navxSuffix) = false := by
      simp [hp]
    rw [hb]
    rfl

theorem processRewards_clean (pool_id : String) (rs : List PyVal)
    (h : ∀ r ∈ rs, CleanReward r) :
    processRewards pool_id rs = some (rs.filterMap (spec_reward pool_id)) := by
  induction rs with
  | nil => rfl
  | cons r t ih =>
    have hr := processReward_clean pool_id r (h r (by simp))
    have ht := ih (fun w hw => h w (by simp [hw]))
    rw [processRewards, hr, ht]
    cases hsp : spec_reward pool_id r with
    | none => simp [List.filterMap_cons, hsp]
    | some rec => simp [List.filterMap_cons, hsp]

/-- C10: on a 200 rewards response whose elements are clean, the returned
list is exactly the spec's filter: a record is included iff its `pool`
equals the pool id and its `coin_type` ends with `::navx::NAVX`, with
`amount` divided by 1e9 and `token_price` defaulting to
`0.144426003098488` (see `spec_reward`). -/
theorem fetch_rewards_filter_spec (user_address pool_id : String)
    (rs : List PyVal) (h : ∀ r ∈ rs, CleanReward r) :
    fetch_rewards user_address pool_id (.response 200 (.list rs)) =
      (rs.filterMap (spec_reward pool_id), 200) := by
  rw [fetch_rewards]
  rw [if_neg (by norm_num), processRewards_clean pool_id rs h]

theorem fetch_rewards_filter_spec_witness :
    CleanReward (.dict [("pool", .str "0xpool1"),
      ("coin_type", .str "0xabc::navx::NAVX"), ("amount", .num 2000000000)]) ∧
    CleanReward (.dict [("pool", .str "0xpool1"),
      ("coin_type", .str "0xabc::cetus::CETUS"), ("amount", .num 7)]) ∧
    fetch_rewards "0xuser" "0xpool1" (.response 200 (.list
      [.dict [("pool", .str "0xpool1"),
        ("coin_type", .str "0xabc::navx::NAVX"), ("amount", .num 2000000000)],
       .dict [("pool", .str "0xpool1"),
        ("coin_type", .str "0xabc::cetus::CETUS"), ("amount", .num 7)]])) =
      ([.dict [("pool", .str "0xpool1"),
          ("coin_type", .str "0xabc::navx::NAVX"),
          ("amount", .num 2000000000)],
        .dict [("pool", .str "0xpool1"),
          ("coin_type", .str "0xabc::cetus::CETUS"),
          ("amount", .num 7)]].filterMap (spec_reward "0xpool1"), 200) := by
  refine ⟨⟨_, rfl, ⟨2000000000, rfl⟩, ⟨tpDefault, rfl⟩, ⟨"0xabc::navx::NAVX", rfl⟩⟩,
    ⟨_, rfl, ⟨7, rfl⟩, ⟨tpDefault, rfl⟩, ⟨"0xabc::cetus::CETUS", rfl⟩⟩, ?_⟩
  refine fetch_rewards_filter_spec "0xuser" "0xpool1" _ ?_
  intro r hr
  rcases List.mem_cons.mp hr with rfl | hr2
  · exact ⟨_, rfl, ⟨2000000000, rfl⟩, ⟨tpDefault, rfl⟩, ⟨"0xabc::navx::NAVX", rfl⟩⟩
  rcases List.mem_cons.mp hr2 with rfl | hr3
  · exact ⟨_, rfl, ⟨7, rfl⟩, ⟨tpDefault, rfl⟩, ⟨"0xabc::cetus::CETUS", rfl⟩⟩
  · exact absurd hr3 (List.not_mem_nil r)

end NaviVolo
